import Mathlib

/-!
Verification of the note-splitter core against its specification.

The data model and operations below are shallow embeddings of
`src/note_splitter/tokens.py` and `src/note_splitter/settings.py`.
Python strings are modelled as lists of characters (`Str`), Python
exceptions as an explicit `PyError` sum returned through `Except`.
Components of the pipeline that are described by the specification but
whose code is not part of the repository snapshot (the Lexer, the
Pattern Classifier's driver loop and the Block Assembler) are modelled
from the specification's words; each such definition is marked
`Modelled from the spec:` in its doc comment.
-/

namespace NoteSplitter

/-- A Python string, modelled as its sequence of characters. -/
abbrev Str := List Char

/-- Python `line.lstrip(c)` for a single strip character `c`:
removes every leading occurrence of `c`. -/
def lstripChar (c : Char) : Str → Str
  | [] => []
  | x :: xs => if x = c then lstripChar c xs else x :: xs

/-- Python `str.isspace` restricted to the ASCII whitespace characters
that can occur in the documents this program handles. -/
def pyIsSpace (c : Char) : Bool :=
  c = ' ' ∨ c = '\t' ∨ c = '\n' ∨ c = '\r' ∨ c = '\x0b' ∨ c = '\x0c'

/-- Python `line.lstrip()` with no argument: removes leading whitespace. -/
def lstripSpace : Str → Str
  | [] => []
  | x :: xs => if pyIsSpace x then lstripSpace xs else x :: xs

/-- Python `line.rstrip()`: removes trailing whitespace. -/
def rstripSpace (s : Str) : Str :=
  (lstripSpace s.reverse).reverse

/-- Python `line.strip()`: removes leading and trailing whitespace. -/
def stripSpace (s : Str) : Str :=
  rstripSpace (lstripSpace s)

/-- `tokens.__get_indentation_level`: counts the spaces at the start of
the line; if that count is zero, counts leading tabs and multiplies
by 4. -/
def get_indentation_level (line : Str) : Nat :=
  let level := line.length - (lstripChar ' ' line).length
  if level = 0 then
    let tab_count := line.length - (lstripChar '\t' line).length
    tab_count * 4
  else level

/-- Python exceptions that the embedded functions can raise. -/
inductive PyError where
  | valueError
  | indexError
  | attributeError
  | keyError
  deriving DecidableEq, Repr

/-- The token data model of `tokens.py`: one variant per concrete class.
Atomic variants carry the `content` line (and any attributes computed by
`__init__`); compound (`Block`) variants carry their list of child
tokens plus any attribute copied from a child at construction time. -/
inductive Token where
  | text (content : Str) (level : Nat)
  | emptyLine (content : Str)
  | header (content : Str) (body : Str) (level : Nat)
  | horizontalRule (content : Str)
  | blockquote (content : Str) (level : Nat)
  | blockquoteBlock (children : List Token)
  | footnote (content : Str)
  | toDo (content : Str) (level : Nat)
  | done (content : Str) (level : Nat)
  | unorderedListItem (content : Str) (level : Nat)
  | numberedListItem (content : Str) (level : Nat)
  | letteredListItem (content : Str) (level : Nat)
  | textList (children : List Token) (level : Nat)
  | tableRow (content : Str)
  | tableDivider (content : Str)
  | table (children : List Token)
  | codeFence (content : Str) (language : Str)
  | code (content : Str)
  | codeBlock (children : List Token) (language : Str)
  | mathFence (content : Str)
  | math (content : Str)
  | mathBlock (children : List Token)
  | sectionTok (children : List Token)

/-- The `level` attribute, for the variants whose class defines one. -/
def Token.levelAttr : Token → Option Nat
  | .text _ l => some l
  | .header _ _ l => some l
  | .blockquote _ l => some l
  | .toDo _ l => some l
  | .done _ l => some l
  | .unorderedListItem _ l => some l
  | .numberedListItem _ l => some l
  | .letteredListItem _ l => some l
  | .textList _ l => some l
  | _ => none

/-- The `language` attribute, for the variants whose class defines one. -/
def Token.languageAttr : Token → Option Str
  | .codeFence _ lang => some lang
  | .codeBlock _ lang => some lang
  | _ => none

/-- The child list, for the compound (`Block`) variants. -/
def Token.childrenAttr : Token → Option (List Token)
  | .blockquoteBlock cs => some cs
  | .textList cs _ => some cs
  | .table cs => some cs
  | .codeBlock cs _ => some cs
  | .mathBlock cs => some cs
  | .sectionTok cs => some cs
  | _ => none

/-- `Text.__init__`. -/
def Text.init (line : Str) : Token :=
  .text line (get_indentation_level line)

/-- `EmptyLine.__init__`. -/
def EmptyLine.init (line : Str) : Token :=
  .emptyLine line

/-- `Header.__init__`: `body = line.lstrip('#')`, then
`level = len(line) - len(body)`, then `body = body.lstrip()`. -/
def Header.init (line : Str) : Token :=
  let body := lstripChar '#' line
  let level := line.length - body.length
  .header line (lstripSpace body) level

/-- `HorizontalRule.__init__`. -/
def HorizontalRule.init (line : Str) : Token :=
  .horizontalRule line

/-- `Blockquote.__init__`. -/
def Blockquote.init (line : Str) : Token :=
  .blockquote line (get_indentation_level line)

/-- `BlockquoteBlock.__init__`: stores the given tokens unchecked. -/
def BlockquoteBlock.init (tokens_ : List Token) : Token :=
  .blockquoteBlock tokens_

/-- `Footnote.__init__`. -/
def Footnote.init (line : Str) : Token :=
  .footnote line

/-- `ToDo.__init__`. -/
def ToDo.init (line : Str) : Token :=
  .toDo line (get_indentation_level line)

/-- `Done.__init__`. -/
def Done.init (line : Str) : Token :=
  .done line (get_indentation_level line)

/-- `UnorderedListItem.__init__`. -/
def UnorderedListItem.init (line : Str) : Token :=
  .unorderedListItem line (get_indentation_level line)

/-- `NumberedListItem.__init__`. -/
def NumberedListItem.init (line : Str) : Token :=
  .numberedListItem line (get_indentation_level line)

/-- `LetteredListItem.__init__`. -/
def LetteredListItem.init (line : Str) : Token :=
  .letteredListItem line (get_indentation_level line)

/-- `TextList.__init__`: reads `tokens_[0].level`, so it raises
`IndexError` on an empty list (in particular on the default argument
`[]`) and `AttributeError` when the first child has no `level`. -/
def TextList.init (tokens_ : List Token) : Except PyError Token :=
  match tokens_ with
  | [] => .error .indexError
  | t :: _ =>
    match t.levelAttr with
    | none => .error .attributeError
    | some l => .ok (.textList tokens_ l)

/-- `TextList()` with the default argument, which is the empty list. -/
def TextList.initDefault : Except PyError Token :=
  TextList.init []

/-- `TableRow.__init__`. -/
def TableRow.init (line : Str) : Token :=
  .tableRow line

/-- `TableDivider.__init__`. -/
def TableDivider.init (line : Str) : Token :=
  .tableDivider line

/-- `Table.__init__`: stores the given tokens unchecked. -/
def Table.init (tokens_ : List Token) : Token :=
  .table tokens_

/-- `CodeFence.__init__`: `language = line.lstrip('~').lstrip('`').strip()`. -/
def CodeFence.init (line : Str) : Token :=
  .codeFence line (stripSpace (lstripChar '`' (lstripChar '~' line)))

/-- `Code.__init__`. -/
def Code.init (line : Str) : Token :=
  .code line

/-- `CodeBlock.__init__`: reads `tokens_[0].language`, so it raises
`IndexError` on an empty list and `AttributeError` when the first
child has no `language`. -/
def CodeBlock.init (tokens_ : List Token) : Except PyError Token :=
  match tokens_ with
  | [] => .error .indexError
  | t :: _ =>
    match t.languageAttr with
    | none => .error .attributeError
    | some lang => .ok (.codeBlock tokens_ lang)

/-- `MathFence.__init__`. -/
def MathFence.init (line : Str) : Token :=
  .mathFence line

/-- `Math.__init__`. -/
def Math.init (line : Str) : Token :=
  .math line

/-- `MathBlock.__init__`: stores the given tokens unchecked. -/
def MathBlock.init (tokens_ : List Token) : Token :=
  .mathBlock tokens_

/-- `Section.__init__`: stores the given tokens unchecked. -/
def Section.init (tokens_ : List Token) : Token :=
  .sectionTok tokens_

mutual

/-- `Token.__str__` / `Block.__str__`: an atomic token renders as its
content followed by a newline; a compound token renders as the
concatenation of its children's renderings. -/
def render : Token → Str
  | .text c _ => c ++ ['\n']
  | .emptyLine c => c ++ ['\n']
  | .header c _ _ => c ++ ['\n']
  | .horizontalRule c => c ++ ['\n']
  | .blockquote c _ => c ++ ['\n']
  | .blockquoteBlock cs => renderList cs
  | .footnote c => c ++ ['\n']
  | .toDo c _ => c ++ ['\n']
  | .done c _ => c ++ ['\n']
  | .unorderedListItem c _ => c ++ ['\n']
  | .numberedListItem c _ => c ++ ['\n']
  | .letteredListItem c _ => c ++ ['\n']
  | .textList cs _ => renderList cs
  | .tableRow c => c ++ ['\n']
  | .tableDivider c => c ++ ['\n']
  | .table cs => renderList cs
  | .codeFence c _ => c ++ ['\n']
  | .code c => c ++ ['\n']
  | .codeBlock cs _ => renderList cs
  | .mathFence c => c ++ ['\n']
  | .math c => c ++ ['\n']
  | .mathBlock cs => renderList cs
  | .sectionTok cs => renderList cs

/-- Rendering of a token sequence: the concatenation of each token's
rendering, in order (`''.join(str(token) for token in tokens)`). -/
def renderList : List Token → Str
  | [] => []
  | t :: ts => render t ++ renderList ts

end

/-! ## The Token Type Registry (`settings.py` + `tokens.get_all_token_types`)

`get_all_token_types` collects, via `inspect.getmembers`, every class
defined in or imported into the `tokens` module whose name is neither
`ABC` nor `module` — that is, the 29 concrete and abstract token
classes (on the Python versions this code targets, the `typing` names
`List`/`Union`/`Type`/`Any` are not classes).  `inspect.getmembers`
returns members sorted alphabetically by name. -/

/-- The closed catalog of token kinds: one constructor per class of the
`tokens` module (abstract classes included, as `get_all_token_types`
does not exclude them). -/
inductive TokenType where
  | Block | Blockquote | BlockquoteBlock | Code | CodeBlock | CodeFence
  | Done | EmptyLine | Fence | Footnote | Header | HorizontalRule
  | LetteredListItem | Math | MathBlock | MathFence | NumberedListItem
  | OrderedListItem | Section | Table | TableDivider | TablePart
  | TableRow | Text | TextList | TextListItem | ToDo | Token
  | UnorderedListItem
  deriving DecidableEq, Repr, Fintype

/-- The Python `__name__` of each token class. -/
def TokenType.pyName : TokenType → Str
  | .Block => "Block".toList
  | .Blockquote => "Blockquote".toList
  | .BlockquoteBlock => "BlockquoteBlock".toList
  | .Code => "Code".toList
  | .CodeBlock => "CodeBlock".toList
  | .CodeFence => "CodeFence".toList
  | .Done => "Done".toList
  | .EmptyLine => "EmptyLine".toList
  | .Fence => "Fence".toList
  | .Footnote => "Footnote".toList
  | .Header => "Header".toList
  | .HorizontalRule => "HorizontalRule".toList
  | .LetteredListItem => "LetteredListItem".toList
  | .Math => "Math".toList
  | .MathBlock => "MathBlock".toList
  | .MathFence => "MathFence".toList
  | .NumberedListItem => "NumberedListItem".toList
  | .OrderedListItem => "OrderedListItem".toList
  | .Section => "Section".toList
  | .Table => "Table".toList
  | .TableDivider => "TableDivider".toList
  | .TablePart => "TablePart".toList
  | .TableRow => "TableRow".toList
  | .Text => "Text".toList
  | .TextList => "TextList".toList
  | .TextListItem => "TextListItem".toList
  | .ToDo => "ToDo".toList
  | .Token => "Token".toList
  | .UnorderedListItem => "UnorderedListItem".toList

/-- `tokens.get_all_token_types`: every class member of the `tokens`
module except `ABC` and `ModuleType`, in the alphabetical order
produced by `inspect.getmembers`. -/
def get_all_token_types : List TokenType :=
  [.Block, .Blockquote, .BlockquoteBlock, .Code, .CodeBlock, .CodeFence,
   .Done, .EmptyLine, .Fence, .Footnote, .Header, .HorizontalRule,
   .LetteredListItem, .Math, .MathBlock, .MathFence, .NumberedListItem,
   .OrderedListItem, .Section, .Table, .TableDivider, .TablePart,
   .TableRow, .Text, .TextList, .TextListItem, .ToDo, .Token,
   .UnorderedListItem]

/-- The loop body of `settings.get_token_type_name`: walks the class
name with its index, inserting a space before each uppercase letter at
a nonzero index.  `isUpper` agrees with Python's `str.isupper` on the
ASCII class names involved. -/
def insertSpacesFrom (i : Nat) : Str → Str
  | [] => []
  | c :: cs =>
    if i ≠ 0 ∧ c.isUpper then ' ' :: c :: insertSpacesFrom (i + 1) cs
    else c :: insertSpacesFrom (i + 1) cs

/-- `settings.get_token_type_name`: builds the spaced name and then
lowercases the whole string (`token_name.lower()`). -/
def get_token_type_name (token_type : TokenType) : Str :=
  (insertSpacesFrom 0 token_type.pyName).map Char.toLower

/-- `settings.get_token_type_names` with no filter predicate: the
formatted names of all token types, in catalog order. -/
def get_token_type_names : List Str :=
  get_all_token_types.map get_token_type_name

/-- The lookup loop of `settings.get_token_type`: first type whose
formatted name equals the chosen name. -/
def findTokenType (chosen_name : Str) : List TokenType → Except PyError TokenType
  | [] => .error .valueError
  | t :: ts =>
    if get_token_type_name t = chosen_name then .ok t
    else findTokenType chosen_name ts

/-- `settings.get_token_type`: scans the catalog for a type whose
formatted name equals `chosen_name`; raises a `ValueError` reporting
the name as not found when none is equal (the error the
specification's taxonomy calls `ConfigurationError`). -/
def get_token_type (chosen_name : Str) : Except PyError TokenType :=
  findTokenType chosen_name get_all_token_types

/-- `tokens.simple_token_types`: the ordered list of kinds whose lines
can be categorized without context, in the order written in the source.
The order encodes matching precedence. -/
def simple_token_types : List TokenType :=
  [.EmptyLine, .Header, .HorizontalRule, .CodeFence, .MathFence,
   .Blockquote, .ToDo, .Done, .Footnote, .UnorderedListItem,
   .NumberedListItem, .LetteredListItem, .TableDivider, .TableRow]

/-! ## Lexer, Pattern Classifier and Block Assembler

The Lexer, the Classifier's driving loop and the Block Assembler are
part of this program but their files are not in the repository
snapshot (only the token classes they construct and the ordered
`simple_token_types` table are).  They are modelled here from the
specification. -/

/-- Dispatches a matched simple kind to the corresponding class
constructor from `tokens.py`.  Kinds that are not in
`simple_token_types` never reach this dispatch; they are mapped to the
`Text` constructor, the specification's default for unmatched lines. -/
def constructSimple (t : TokenType) (line : Str) : Token :=
  match t with
  | .EmptyLine => EmptyLine.init line
  | .Header => Header.init line
  | .HorizontalRule => HorizontalRule.init line
  | .CodeFence => CodeFence.init line
  | .MathFence => MathFence.init line
  | .Blockquote => Blockquote.init line
  | .ToDo => ToDo.init line
  | .Done => Done.init line
  | .Footnote => Footnote.init line
  | .UnorderedListItem => UnorderedListItem.init line
  | .NumberedListItem => NumberedListItem.init line
  | .LetteredListItem => LetteredListItem.init line
  | .TableDivider => TableDivider.init line
  | .TableRow => TableRow.init line
  | _ => Text.init line

/-- Modelled from the spec: the Pattern Classifier holds an ordered
list of (kind, recognizer) pairs — `simple_token_types`, each kind with
its `pattern` — and the first recognizer to match wins; a line
matching no recognizer classifies as `Text`.  The recognizers live in
the absent `patterns` module, so they are a parameter `matcher`. -/
def classifyKind (matcher : TokenType → Str → Bool) (line : Str) : TokenType :=
  match simple_token_types.find? (fun t => matcher t line) with
  | some t => t
  | none => .Text

/-- Modelled from the spec: classification of one line into an atomic
token, built by the matched kind's constructor. -/
def classifyLine (matcher : TokenType → Str → Bool) (line : Str) : Token :=
  constructSimple (classifyKind matcher line) line

/-- Modelled from the spec: the Lexer splits the document on the line
terminator into its lines, one token per line, preserving line order
and count exactly (a trailing terminator ends the last line rather than
opening an empty extra one). -/
def splitLines : Str → List Str
  | [] => []
  | c :: cs =>
    if c = '\n' then [] :: splitLines cs
    else
      match splitLines cs with
      | [] => [[c]]
      | l :: ls => (c :: l) :: ls

/-- Modelled from the spec: the Lexer feeds each line to the
Classifier and returns the flat atomic token sequence. -/
def lex (matcher : TokenType → Str → Bool) (document : Str) : List Token :=
  (splitLines document).map (classifyLine matcher)

/-- Modelled from the spec: the Block Assembler's effect on a token
sequence, as a relation.  Per §4.3 and the glossary, assembly either
passes a token through unfolded, re-tags a line inside a fence with a
content-preserving replacement (`Code`/`Math` carry the raw line), or
folds a nonempty contiguous run into one compound token owning the
(recursively assembled) run as its children. -/
inductive Assembles : List Token → List Token → Prop where
  | nil : Assembles [] []
  | pass {t : Token} {ts us : List Token} :
      Assembles ts us → Assembles (t :: ts) (t :: us)
  | retag {t t' : Token} {ts us : List Token} :
      render t' = render t → Assembles ts us → Assembles (t :: ts) (t' :: us)
  | fold {run rest : List Token} {cs us : List Token} {b : Token} :
      run ≠ [] → b.childrenAttr = some cs → Assembles run cs →
      Assembles rest us → Assembles (run ++ rest) (b :: us)

/-! ## Settings (`settings.py`) -/

/-- A value stored in the `settings` dictionary. -/
inductive SettingValue where
  | boolV : Bool → SettingValue
  | strV : Str → SettingValue
  | strListV : List Str → SettingValue
  | attrsV : List (Str × Int) → SettingValue
  | typeV : TokenType → SettingValue
  deriving DecidableEq

/-- A Python dictionary with string keys, modelled as an association
list with distinct keys kept in insertion order. -/
abbrev PyDict := List (Str × SettingValue)

/-- Python `d[k]` as an option: the value at the first (unique)
occurrence of key `k`. -/
def dictGet (d : PyDict) (k : Str) : Option SettingValue :=
  (d.find? (fun p => p.1 = k)).map Prod.snd

/-- Python `d[k] = v`: replaces the value in place when the key exists
(preserving insertion order), otherwise appends the new pair. -/
def dictSet (d : PyDict) (k : Str) (v : SettingValue) : PyDict :=
  if d.any (fun p => p.1 = k) then
    d.map (fun p => if p.1 = k then (k, v) else p)
  else d ++ [(k, v)]

/-- `get_token_type_name` applied to a stored settings value: only a
type object has the `__name__` the function reads. -/
def getTokenTypeNameOfValue : SettingValue → Except PyError Str
  | .typeV t => .ok (get_token_type_name t)
  | _ => .error .attributeError

/-- `settings.save_settings`: saves `temp = settings['split_type']`,
overwrites that entry with its formatted name, serializes the dictionary
to `settings.json` (the serialized snapshot is returned in place of the
file write, which is external I/O), and restores the saved value.
Returns the settings dictionary as left after the call together with
the serialized snapshot. -/
def save_settings (settings : PyDict) : Except PyError (PyDict × PyDict) :=
  match dictGet settings ("split_type".toList) with
  | none => .error .keyError
  | some temp =>
    match getTokenTypeNameOfValue temp with
    | .error e => .error e
    | .ok name =>
      let renamed := dictSet settings ("split_type".toList) (.strV name)
      let restored := dictSet renamed ("split_type".toList) temp
      .ok (restored, renamed)

/-! ## Helper lemmas -/

/-- The number of leading occurrences of the character `c` in `s`. -/
def countLeading (c : Char) (s : Str) : Nat :=
  (s.takeWhile (fun x => x = c)).length

theorem lstripChar_eq_dropWhile (c : Char) (s : Str) :
    lstripChar c s = s.dropWhile (fun x => x = c) := by
  induction s with
  | nil => rfl
  | cons x xs ih =>
    by_cases h : x = c <;> simp [lstripChar, List.dropWhile_cons, h, ih]

theorem length_sub_lstripChar (c : Char) (s : Str) :
    s.length - (lstripChar c s).length = countLeading c s := by
  have h := List.takeWhile_append_dropWhile (p := fun x => decide (x = c)) (l := s)
  have hlen : (s.takeWhile (fun x => decide (x = c))).length
      + (s.dropWhile (fun x => decide (x = c))).length = s.length := by
    rw [← List.length_append, h]
  rw [lstripChar_eq_dropWhile, countLeading]
  omega

theorem lstripSpace_eq_dropWhile (s : Str) :
    lstripSpace s = s.dropWhile pyIsSpace := by
  induction s with
  | nil => rfl
  | cons x xs ih =>
    by_cases h : pyIsSpace x <;> simp [lstripSpace, List.dropWhile_cons, h, ih]

/-! ## Claim theorems -/

/-- Claim C7: for every line of text, `__get_indentation_level` returns
the count of leading space characters; when that count is zero, it
returns the count of leading tab characters multiplied by 4 (so the
space count is preferred whenever it is positive).  The function is
total, so it never fails, in particular on lines mixing tabs and
spaces. -/
theorem C7_indentation_level (line : Str) :
    get_indentation_level line =
      if countLeading ' ' line = 0 then countLeading '\t' line * 4
      else countLeading ' ' line := by
  have h1 := length_sub_lstripChar ' ' line
  have h2 := length_sub_lstripChar '\t' line
  simp only [get_indentation_level, h1, h2]

/-- Claim C3: constructing a `Header` token from a line sets `level` to
the count of leading `'#'` characters, sets `body` to the line with the
leading `'#'` characters and their following whitespace removed, and
keeps the whole line unchanged in `content`. -/
theorem C3_header_construction (line : Str) :
    Header.init line =
      Token.header line
        ((line.dropWhile (fun c => c = '#')).dropWhile pyIsSpace)
        (countLeading '#' line) := by
  have h := length_sub_lstripChar '#' line
  simp only [Header.init, lstripSpace_eq_dropWhile, lstripChar_eq_dropWhile, h]
  rw [← lstripChar_eq_dropWhile, h]

/-- Follows the spec's words, for comparison with the source's
`get_token_type_name`: the human-readable form is "derived by inserting
a space before each internal capitalization boundary and lowercasing". -/
def spec_name_of : Str → Str
  | [] => []
  | c :: cs =>
    c.toLower :: cs.flatMap (fun d => if d.isUpper then [' ', d.toLower] else [d.toLower])

/-- Claim C5: for every token kind, `get_token_type_name` returns the
kind's identifier with a space inserted before each internal
capitalization boundary and every letter lowercased; in particular the
`UnorderedListItem` identifier maps to `"unordered list item"`. -/
theorem C5_token_type_name :
    (∀ t : TokenType, get_token_type_name t = spec_name_of t.pyName)
    ∧ get_token_type_name .UnorderedListItem = "unordered list item".toList := by
  constructor
  · intro t
    cases t <;> rfl
  · rfl

/-- Claim C2 counterexample: `BlockquoteBlock` and `Section` constructed
from an empty child list do not fail at all — each call returns a
compound token whose child list is empty, contradicting the claim that
every such construction fails with `EmptyInputError`. -/
theorem C2_counterexample :
    BlockquoteBlock.init [] = Token.blockquoteBlock []
    ∧ (BlockquoteBlock.init []).childrenAttr = some []
    ∧ Section.init [] = Token.sectionTok []
    ∧ (Section.init []).childrenAttr = some [] :=
  ⟨rfl, rfl, rfl, rfl⟩

/-- Claim C2, amended: no compound constructor checks for emptiness or
raises `EmptyInputError`.  `BlockquoteBlock`, `Table`, `MathBlock` and
`Section` constructed from an empty child list succeed and return a
compound token with zero children; `TextList` and `CodeBlock` fail on
an empty child list, but with an `IndexError` from reading the first
child, not with `EmptyInputError`. -/
theorem C2_empty_children :
    BlockquoteBlock.init [] = Token.blockquoteBlock []
    ∧ Table.init [] = Token.table []
    ∧ MathBlock.init [] = Token.mathBlock []
    ∧ Section.init [] = Token.sectionTok []
    ∧ TextList.init [] = .error .indexError
    ∧ CodeBlock.init [] = .error .indexError :=
  ⟨rfl, rfl, rfl, rfl, rfl, rfl⟩

/-- Claim C9: constructing a `TextList` with the default argument (the
empty child list) raises an exception (an `IndexError`, from reading
`tokens_[0].level`) rather than producing a token; and every
successfully constructed `TextList` has at least one child, holds
exactly the given children, and has its `level` attribute equal to its
first child's `level`. -/
theorem C9_textlist_init :
    TextList.initDefault = .error .indexError
    ∧ (∀ (ts : List Token) (tok : Token), TextList.init ts = .ok tok →
        ts ≠ []
        ∧ tok.childrenAttr = some ts
        ∧ tok.levelAttr = ts.head?.bind Token.levelAttr) := by
  refine ⟨rfl, ?_⟩
  intro ts tok h
  match ts with
  | [] => simp [TextList.init] at h
  | t :: rest =>
    simp only [TextList.init] at h
    match hl : t.levelAttr with
    | none => rw [hl] at h; exact absurd h (by simp)
    | some l =>
      rw [hl] at h
      simp only [Except.ok.injEq] at h
      subst h
      refine ⟨by simp, rfl, ?_⟩
      have hh : (t :: rest).head?.bind Token.levelAttr = t.levelAttr := rfl
      rw [hh, hl]
      rfl

/-- Witness for C9: a concrete successful construction from one `Done`
item, checked through the theorem. -/
theorem C9_witness :
    ([Token.done ['x'] 0] : List Token) ≠ []
    ∧ (Token.textList [Token.done ['x'] 0] 0).childrenAttr = some [Token.done ['x'] 0]
    ∧ (Token.textList [Token.done ['x'] 0] 0).levelAttr
        = ([Token.done ['x'] 0].head?.bind Token.levelAttr) :=
  C9_textlist_init.2 [Token.done ['x'] 0] (Token.textList [Token.done ['x'] 0] 0) rfl

theorem findTokenType_error_iff (n : Str) (l : List TokenType) :
    findTokenType n l = .error .valueError ↔ ∀ t ∈ l, get_token_type_name t ≠ n := by
  induction l with
  | nil => simp [findTokenType]
  | cons t ts ih =>
    by_cases h : get_token_type_name t = n
    · simp [findTokenType, h]
    · simp [findTokenType, h, ih]

theorem findTokenType_ok_of_mem (n : Str) (l : List TokenType) (t : TokenType)
    (hmem : t ∈ l) (hname : get_token_type_name t = n) :
    ∃ u, findTokenType n l = .ok u ∧ get_token_type_name u = n := by
  induction l with
  | nil => cases hmem
  | cons x xs ih =>
    by_cases h : get_token_type_name x = n
    · exact ⟨x, by simp [findTokenType, h], h⟩
    · rcases List.mem_cons.mp hmem with rfl | hxs
      · exact absurd hname h
      · obtain ⟨u, hu, hun⟩ := ih hxs
        exact ⟨u, by simp [findTokenType, h, hu], hun⟩

/-- Claim C4: `get_token_type` fails — with the `ValueError` that the
specification's error taxonomy calls `ConfigurationError` — exactly
when the given name is not the formatted name of any cataloged token
kind, and returns a kind carrying the requested name, without failing,
when it is. -/
theorem C4_get_token_type (chosen_name : Str) :
    (get_token_type chosen_name = .error .valueError
      ↔ ∀ t ∈ get_all_token_types, get_token_type_name t ≠ chosen_name)
    ∧ (∀ t ∈ get_all_token_types, get_token_type_name t = chosen_name →
        ∃ u, get_token_type chosen_name = .ok u ∧ get_token_type_name u = chosen_name) :=
  ⟨findTokenType_error_iff chosen_name get_all_token_types,
   fun t hmem hname => findTokenType_ok_of_mem chosen_name get_all_token_types t hmem hname⟩

/-- Witness for C4: the lookup fails on a name that belongs to no
cataloged kind and succeeds on the formatted name of `Header`. -/
theorem C4_witness :
    get_token_type ("no such type".toList) = .error .valueError
    ∧ ∃ u, get_token_type ("header".toList) = .ok u
        ∧ get_token_type_name u = "header".toList :=
  ⟨(C4_get_token_type ("no such type".toList)).1.mpr (by decide),
   (C4_get_token_type ("header".toList)).2 .Header (by decide) (by decide)⟩

/-- Claim C6: for every cataloged token kind `k`, the inverse lookup
round-trips: `get_token_type (get_token_type_name k) = k`, so
`get_token_type_name` is injective on the catalog and `get_token_type`
is its inverse. -/
theorem C6_name_roundtrip :
    (∀ t : TokenType, get_token_type (get_token_type_name t) = .ok t)
    ∧ (∀ t u : TokenType,
        get_token_type_name t = get_token_type_name u → t = u) := by
  constructor
  · intro t; cases t <;> rfl
  · decide

/-- Witness for C6: the round-trip and the injectivity, applied to
concrete kinds. -/
theorem C6_witness :
    get_token_type (get_token_type_name .UnorderedListItem) = .ok .UnorderedListItem
    ∧ TokenType.Done = TokenType.Done :=
  ⟨C6_name_roundtrip.1 .UnorderedListItem,
   C6_name_roundtrip.2 .Done .Done (by decide)⟩

/-- The kinds listed before `Done` in `simple_token_types`. -/
def typesBeforeDone : List TokenType :=
  [.EmptyLine, .Header, .HorizontalRule, .CodeFence, .MathFence, .Blockquote, .ToDo]

/-- The kinds listed after `Done` in `simple_token_types`. -/
def typesAfterDone : List TokenType :=
  [.Footnote, .UnorderedListItem, .NumberedListItem, .LetteredListItem,
   .TableDivider, .TableRow]

theorem simple_token_types_split :
    simple_token_types = typesBeforeDone ++ TokenType.Done :: typesAfterDone := rfl

/-- Claim C8: in the Classifier's ordered kind list, `Done` appears
strictly before `UnorderedListItem`; consequently, under first-match
classification, a line whose recognizers include `Done` is never
classified as `UnorderedListItem`, and is classified as `Done` whenever
no kind listed before `Done` also matches. -/
theorem C8_done_precedes_unordered :
    simple_token_types.indexOf TokenType.Done
      < simple_token_types.indexOf TokenType.UnorderedListItem
    ∧ (∀ (matcher : TokenType → Str → Bool) (line : Str),
        matcher .Done line = true →
        classifyKind matcher line ≠ .UnorderedListItem)
    ∧ (∀ (matcher : TokenType → Str → Bool) (line : Str),
        matcher .Done line = true →
        (∀ t ∈ typesBeforeDone, matcher t line = false) →
        classifyKind matcher line = .Done) := by
  have key : ∀ (matcher : TokenType → Str → Bool) (line : Str),
      matcher .Done line = true →
      classifyKind matcher line = .Done
      ∨ ∃ x ∈ typesBeforeDone, classifyKind matcher line = x ∧ matcher x line = true := by
    intro M line hD
    have hcons : List.find? (fun t => M t line) (TokenType.Done :: typesAfterDone)
        = some .Done := by
      rw [List.find?_cons, hD]
    unfold classifyKind
    rw [simple_token_types_split, List.find?_append, hcons]
    cases hpre : List.find? (fun t => M t line) typesBeforeDone with
    | none => left; rfl
    | some x =>
      right
      have hxm := List.find?_some (p := fun t => M t line) hpre
      exact ⟨x, List.mem_of_find?_eq_some hpre, rfl, hxm⟩
  refine ⟨by decide, ?_, ?_⟩
  · intro M line hD
    rcases key M line hD with h | ⟨x, hx, hcls, _⟩
    · rw [h]; decide
    · rw [hcls]
      intro hEq
      rw [hEq] at hx
      simp [typesBeforeDone] at hx
  · intro M line hD hpre
    rcases key M line hD with h | ⟨x, hx, _, hxm⟩
    · exact h
    · exact absurd hxm (by rw [hpre x hx]; decide)

/-- Witness for C8: a concrete recognizer valuation under which a line
matching both the `Done` and `UnorderedListItem` patterns is classified
as `Done` and not as `UnorderedListItem`. -/
theorem C8_witness :
    classifyKind
        (fun t _ => t = TokenType.Done ∨ t = TokenType.UnorderedListItem)
        ("- [x] task".toList)
      ≠ TokenType.UnorderedListItem
    ∧ classifyKind
        (fun t _ => t = TokenType.Done ∨ t = TokenType.UnorderedListItem)
        ("- [x] task".toList)
      = TokenType.Done :=
  ⟨C8_done_precedes_unordered.2.1
      (fun t _ => t = TokenType.Done ∨ t = TokenType.UnorderedListItem)
      ("- [x] task".toList) (by decide),
   C8_done_precedes_unordered.2.2
      (fun t _ => t = TokenType.Done ∨ t = TokenType.UnorderedListItem)
      ("- [x] task".toList) (by decide) (by decide)⟩

theorem map_id_of_no_key {d : PyDict} {k : Str} {v : SettingValue}
    (h : ∀ p ∈ d, p.1 ≠ k) :
    d.map (fun p => if p.1 = k then (k, v) else p) = d := by
  induction d with
  | nil => rfl
  | cons q rest ih =>
    have hq : q.1 ≠ k := h q (List.mem_cons_self q rest)
    simp only [List.map_cons, if_neg hq]
    rw [ih (fun p hp => h p (List.mem_cons_of_mem q hp))]

theorem dictSet_of_any {d : PyDict} {k : Str} (v : SettingValue)
    (h : d.any (fun p => p.1 = k) = true) :
    dictSet d k v = d.map (fun p => if p.1 = k then (k, v) else p) := by
  simp [dictSet, h]

theorem dictSet_of_not_any {d : PyDict} {k : Str} (v : SettingValue)
    (h : ¬ d.any (fun p => p.1 = k) = true) :
    dictSet d k v = d ++ [(k, v)] := by
  simp [dictSet, h]

theorem dictSet_dictSet (d : PyDict) (k : Str) (v w : SettingValue) :
    dictSet (dictSet d k v) k w = dictSet d k w := by
  by_cases h : d.any (fun p => p.1 = k) = true
  · have h2 : (d.map (fun p => if p.1 = k then (k, v) else p)).any
        (fun p => p.1 = k) = true := by
      rcases List.any_eq_true.mp h with ⟨p, hp, hpk⟩
      have hpk' : p.1 = k := of_decide_eq_true hpk
      apply List.any_eq_true.mpr
      refine ⟨(k, v), ?_, by simp⟩
      apply List.mem_map.mpr
      exact ⟨p, hp, by rw [if_pos hpk']⟩
    rw [dictSet_of_any v h, dictSet_of_any w h2, dictSet_of_any w h, List.map_map]
    congr 1
    funext p
    by_cases hpk : p.1 = k <;> simp [hpk, Function.comp]
  · have hkeys : ∀ p ∈ d, p.1 ≠ k := by
      intro p hp hpk
      exact h (List.any_eq_true.mpr ⟨p, hp, decide_eq_true hpk⟩)
    have h2 : (d ++ [(k, v)]).any (fun p => p.1 = k) = true :=
      List.any_eq_true.mpr ⟨(k, v), by simp, by simp⟩
    rw [dictSet_of_not_any v h, dictSet_of_not_any w h, dictSet_of_any w h2,
      List.map_append, map_id_of_no_key hkeys]
    simp

theorem dictGet_some_any {d : PyDict} {k : Str} {v : SettingValue}
    (hget : dictGet d k = some v) : d.any (fun p => p.1 = k) = true := by
  unfold dictGet at hget
  cases hfind : d.find? (fun p => p.1 = k) with
  | none => rw [hfind] at hget; simp at hget
  | some q =>
    have hq := List.find?_some
      (p := fun (p : Str × SettingValue) => decide (p.1 = k)) hfind
    exact List.any_eq_true.mpr ⟨q, List.mem_of_find?_eq_some hfind, hq⟩

theorem dictSet_get_self {d : PyDict} {k : Str} {v : SettingValue}
    (hnodup : (d.map Prod.fst).Nodup) (hget : dictGet d k = some v) :
    dictSet d k v = d := by
  induction d with
  | nil => simp [dictGet] at hget
  | cons q rest ih =>
    simp only [List.map_cons, List.nodup_cons] at hnodup
    have hany := dictGet_some_any hget
    rw [dictSet_of_any v hany, List.map_cons]
    by_cases hq : q.1 = k
    · have hqv : (k, v) = q := by
        have : dictGet (q :: rest) k = some q.2 := by
          simp [dictGet, List.find?_cons, hq]
        rw [this] at hget
        simp only [Option.some.injEq] at hget
        rw [← hq, ← hget]
      have hrest : ∀ p ∈ rest, p.1 ≠ k := by
        intro p hp hpk
        refine hnodup.1 ?_
        rw [hq, ← hpk]
        exact List.mem_map_of_mem Prod.fst hp
      rw [if_pos hq, map_id_of_no_key hrest, hqv]
    · have hget' : dictGet rest k = some v := by
        have : dictGet (q :: rest) k = dictGet rest k := by
          simp [dictGet, List.find?_cons, hq]
        rw [this] at hget
        exact hget
      have hanyr := dictGet_some_any hget'
      have ihr := ih hnodup.2 hget'
      rw [dictSet_of_any v hanyr] at ihr
      rw [if_neg hq, ihr]

/-- Claim C10: `save_settings` leaves the in-memory settings mapping
unchanged.  It temporarily replaces the `split_type` entry with its
formatted name for serialization and restores the original value before
returning, so on every normal return the settings dictionary (whose
keys, as a Python dict's, are distinct) is exactly what it was before
the call. -/
theorem C10_save_settings_frame
    (settings restored serialized : PyDict)
    (hnodup : (settings.map Prod.fst).Nodup)
    (h : save_settings settings = .ok (restored, serialized)) :
    restored = settings := by
  unfold save_settings at h
  cases hget : dictGet settings ("split_type".toList) with
  | none => rw [hget] at h; exact absurd h (by simp)
  | some temp =>
    rw [hget] at h
    cases temp with
    | typeV t =>
      simp only [getTokenTypeNameOfValue, Except.ok.injEq, Prod.mk.injEq] at h
      rw [← h.1, dictSet_dictSet, dictSet_get_self hnodup hget]
    | boolV b => simp [getTokenTypeNameOfValue] at h
    | strV s => simp [getTokenTypeNameOfValue] at h
    | strListV l => simp [getTokenTypeNameOfValue] at h
    | attrsV a => simp [getTokenTypeNameOfValue] at h

/-- A concrete settings dictionary for the C10 witness. -/
def exampleSettings : PyDict :=
  [("split_type".toList, .typeV .Header), ("backlink".toList, .boolV false)]

/-- Witness for C10: a concrete `save_settings` call whose temporary
rename of `split_type` is undone, leaving the dictionary unchanged. -/
theorem C10_witness :
    dictSet
        (dictSet exampleSettings ("split_type".toList)
          (.strV (get_token_type_name .Header)))
        ("split_type".toList) (.typeV .Header)
      = exampleSettings :=
  C10_save_settings_frame exampleSettings _ _ (by decide) rfl

/-! ## Round-trip (claim C1) -/

/-- The lines of a document, each closed with the line terminator
that rendering appends, concatenated in order. -/
def joinTerminated (ls : List Str) : Str :=
  ls.foldr (fun l acc => l ++ '\n' :: acc) []

theorem render_constructSimple (t : TokenType) (line : Str) :
    render (constructSimple t line) = line ++ ['\n'] := by
  cases t <;>
    simp [constructSimple, render, Text.init, EmptyLine.init, Header.init,
      HorizontalRule.init, CodeFence.init, MathFence.init, Blockquote.init,
      ToDo.init, Done.init, Footnote.init, UnorderedListItem.init,
      NumberedListItem.init, LetteredListItem.init, TableDivider.init,
      TableRow.init]

theorem render_classifyLine (M : TokenType → Str → Bool) (line : Str) :
    render (classifyLine M line) = line ++ ['\n'] :=
  render_constructSimple (classifyKind M line) line

theorem renderList_append (l1 l2 : List Token) :
    renderList (l1 ++ l2) = renderList l1 ++ renderList l2 := by
  induction l1 with
  | nil => rfl
  | cons t ts ih => simp [renderList, ih, List.append_assoc]

theorem render_of_childrenAttr {b : Token} {cs : List Token}
    (h : b.childrenAttr = some cs) : render b = renderList cs := by
  cases b <;> simp [Token.childrenAttr] at h <;> simp [render, h]

theorem assembles_renderList {ts us : List Token} (h : Assembles ts us) :
    renderList us = renderList ts := by
  induction h with
  | nil => rfl
  | pass _ ih => simp [renderList, ih]
  | retag hr _ ih => simp [renderList, hr, ih]
  | fold hne hch ha hr ih1 ih2 =>
    rw [renderList, renderList_append, render_of_childrenAttr hch, ih1, ih2]

/-- Assembly may pass every token through unfolded (the case of a
document with no foldable runs). -/
theorem assembles_refl : ∀ ts : List Token, Assembles ts ts
  | [] => .nil
  | _ :: ts => .pass (assembles_refl ts)

theorem renderList_map_classifyLine (M : TokenType → Str → Bool) (ls : List Str) :
    renderList (ls.map (classifyLine M)) = joinTerminated ls := by
  induction ls with
  | nil => rfl
  | cons l rest ih =>
    simp [renderList, joinTerminated, render_classifyLine, ih]

theorem joinTerminated_splitLines :
    ∀ d : Str, (d = [] ∨ d.getLast? = some '\n') →
      joinTerminated (splitLines d) = d := by
  intro d
  induction d with
  | nil => intro _; rfl
  | cons c cs ih =>
    intro h
    rcases h with h | h
    · simp at h
    · by_cases hc : c = '\n'
      · subst hc
        cases cs with
        | nil => rfl
        | cons c2 cs2 =>
          have h2 : (c2 :: cs2).getLast? = some '\n' := by
            rw [← List.getLast?_cons_cons]
            exact h
          have ihh := ih (Or.inr h2)
          show joinTerminated ([] :: splitLines (c2 :: cs2)) = '\n' :: c2 :: cs2
          calc joinTerminated ([] :: splitLines (c2 :: cs2))
              = '\n' :: joinTerminated (splitLines (c2 :: cs2)) := rfl
            _ = '\n' :: c2 :: cs2 := by rw [ihh]
      · have hcs : cs ≠ [] := by
          intro hnil
          subst hnil
          simp only [List.getLast?_singleton, Option.some.injEq] at h
          exact hc h
        have h2 : cs.getLast? = some '\n' := by
          cases cs with
          | nil => exact absurd rfl hcs
          | cons c2 cs2 =>
            rw [← List.getLast?_cons_cons]
            exact h
        have ihh := ih (Or.inr h2)
        simp only [splitLines, if_neg hc]
        cases hs : splitLines cs with
        | nil =>
          exfalso
          rw [hs] at ihh
          exact hcs ihh.symm
        | cons l ls =>
          rw [hs] at ihh
          show c :: joinTerminated (l :: ls) = c :: cs
          rw [ihh]

/-- Claim C1 counterexample: the document `"abc"`, which has no
trailing line terminator, does not round-trip.  Its lexed token
sequence is its own (pass-through) assembly, yet rendering that
assembled sequence yields `"abc\n"`, not `"abc"`: every atomic token
renders as its content plus the terminator, so no assembly of any token
sequence can reproduce a nonempty document that does not end in the
terminator. -/
theorem C1_counterexample :
    Assembles (lex (fun _ _ => false) "abc".toList)
        (lex (fun _ _ => false) "abc".toList)
    ∧ renderList (lex (fun _ _ => false) "abc".toList) ≠ "abc".toList
    ∧ renderList (lex (fun _ _ => false) "abc".toList) = "abc\n".toList :=
  ⟨assembles_refl _, by decide, by decide⟩

/-- Claim C1, amended: for every document that is empty or ends with
the line terminator (including ones with only blank lines), rendering
any fully assembled token sequence — each atomic token rendering as its
content followed by the terminator, each compound token as the
concatenation of its children's renderings — reproduces the document
byte-for-byte.  (A nonempty document without a trailing terminator is
instead reproduced with a terminator appended, as the counterexample
shows.) -/
theorem C1_roundtrip (M : TokenType → Str → Bool) (d : Str) (us : List Token)
    (hterm : d = [] ∨ d.getLast? = some '\n')
    (hasm : Assembles (lex M d) us) :
    renderList us = d := by
  rw [assembles_renderList hasm]
  unfold lex
  rw [renderList_map_classifyLine, joinTerminated_splitLines d hterm]

/-- Witness for C1: a concrete two-line document ending in the
terminator, assembled with a fold of its two blockquote lines into a
`BlockquoteBlock`, renders back to itself. -/
theorem C1_witness :
    renderList
        [Token.blockquoteBlock
          [Blockquote.init "> a".toList, Blockquote.init "> b".toList]]
      = "> a\n> b\n".toList :=
  C1_roundtrip
    (fun t line => t = TokenType.Blockquote ∧ line.head? = some '>')
    ("> a\n> b\n".toList)
    [Token.blockquoteBlock
      [Blockquote.init "> a".toList, Blockquote.init "> b".toList]]
    (Or.inr (by decide))
    (by
      have h : lex (fun t line => t = TokenType.Blockquote ∧ line.head? = some '>')
          ("> a\n> b\n".toList)
          = [Blockquote.init "> a".toList, Blockquote.init "> b".toList] := rfl
      rw [h]
      exact @Assembles.fold
        [Blockquote.init "> a".toList, Blockquote.init "> b".toList] []
        [Blockquote.init "> a".toList, Blockquote.init "> b".toList] []
        (Token.blockquoteBlock
          [Blockquote.init "> a".toList, Blockquote.init "> b".toList])
        (List.cons_ne_nil _ _) rfl (assembles_refl _) .nil)

end NoteSplitter
